import Mathlib

/-!
Shallow embedding of the query rewrite engine of prisma-extension-soft-delete
(src/lib/helpers/createParams.ts and src/lib/createSoftDeleteExtension.ts),
together with proofs about its rewrite rules and dispatcher.

JavaScript argument trees (`where`, `data`, `include`, ... objects) are
modelled by the `Value` type below; `vUndef` is JS `undefined`, object spread
with a computed key (`{ ...o, [k]: v }`) is `setKey`, `a || b` is `jsOr`, and
property access `o[k]` is `Value.lookup` (returning `vUndef` off objects or
missing keys, as JS does for the accesses the source performs).
-/

namespace SoftDelete

/-- A JavaScript value as manipulated by the rewrite rules. -/
inductive Value where
  | vUndef : Value
  | vNull : Value
  | vBool (b : Bool) : Value
  | vInt (n : Int) : Value
  | vStr (s : String) : Value
  | vObj (fields : List (String × Value)) : Value
  | vArr (elems : List Value) : Value

/-- JS truthiness of a `Value`. -/
def truthy : Value → Bool
  | .vUndef => false
  | .vNull => false
  | .vBool b => b
  | .vInt n => n != 0
  | .vStr s => !s.isEmpty
  | .vObj _ => true
  | .vArr _ => true

/-- JS `a || b`. -/
def jsOr (a b : Value) : Value := if truthy a then a else b

/-- First-occurrence lookup in an object's field list (JS property access). -/
def lookupF : List (String × Value) → String → Value
  | [], _ => .vUndef
  | (k', v') :: rest, k => if k' = k then v' else lookupF rest k

namespace Value

/-- JS property access `o[k]`: `undefined` unless `o` is an object with the key. -/
def lookup : Value → String → Value
  | .vObj l, k => lookupF l k
  | _, _ => .vUndef

end Value

/-- JS `{ ...o, [k]: v }` on an object's field list: replace in place, else append. -/
def setKey : List (String × Value) → String → Value → List (String × Value)
  | [], k, v => [(k, v)]
  | (k', v') :: rest, k, v => if k' = k then (k, v) :: rest else (k', v') :: setKey rest k v

/-- Spreading a value into an object literal: objects contribute their fields,
primitives contribute nothing. -/
def toFields : Value → List (String × Value)
  | .vObj l => l
  | _ => []

/-- `Object.keys` of a value's object form. -/
def keysOf (v : Value) : List String := (toFields v).map Prod.fst

/-- `isEmptyObject` from createParams.ts: no keys and plain-object constructor. -/
def isEmptyObject : Value → Bool
  | .vObj [] => true
  | _ => false

/-- JS truthiness of an optional string (model names: `!params.model`). -/
def truthyStr : Option String → Bool
  | none => false
  | some s => !s.isEmpty

/-- `typeof x === "object"` (true for objects, arrays and `null`). -/
def isObjectType : Value → Bool
  | .vObj _ => true
  | .vArr _ => true
  | .vNull => true
  | _ => false

/-- `model.toLowerCase().includes(key.toLowerCase())`: substring test helpers. -/
def matchesAt : List Char → List Char → Bool
  | _, [] => true
  | [], _ :: _ => false
  | c :: cs, d :: ds => c == d && matchesAt cs ds

/-- `haystack.includes(needle)` on char lists. -/
def containsChars : List Char → List Char → Bool
  | [], pat => pat.isEmpty
  | l@(_ :: rest), pat => matchesAt l pat || containsChars rest pat

/-- `model.toLowerCase().includes(key.toLowerCase())` from `getInclude`
(charwise lowercasing of the two names, then substring test). -/
def containsLower (model key : String) : Bool :=
  containsChars (model.toList.map Char.toLower) (key.toList.map Char.toLower)

/-- `queryOption` values (types.ts `TrashedOption`). -/
inductive TrashedOption where
  | all
  | only
  | except

/-- `ModelConfig` from types.ts. `createValue` is the caller-supplied value
factory; optional fields carry the same defaults the source relies on. -/
structure ModelConfig where
  field : String
  createValue : Bool → Value
  allowToOneUpdates : Bool := false
  allowCompoundUniqueIndexWhere : Bool := false
  queryOption : TrashedOption := .except
  nestModels : List (String × Bool) := []
  forceDelete : Bool := false

/-- `scope.relations.to` of a nested operation (name and cardinality). -/
structure RelationTo where
  name : String
  isList : Bool

/-- `scope.relations` of a nested operation. -/
structure ScopeRelations where
  «to» : RelationTo

/-- The parts of `scope.parentParams` the rewrite rules read. -/
structure ParentParams where
  model : Option String
  operation : String

/-- `scope` of a nested operation (`relations` and `modifier` may be absent). -/
structure Scope where
  parentParams : ParentParams
  relations : Option ScopeRelations
  modifier : Option String

/-- `Params` from createParams.ts: one node of the operation tree.
`args` is `vUndef` when the caller supplied none; `scope` is present only for
nested operations. -/
structure Params where
  model : Option String
  operation : String
  args : Value
  scope : Option Scope

/-- `CreateParamsReturn` from createParams.ts. -/
structure CreateParamsReturn where
  params : Params
  ctx : Option Value := none

/-- The synchronous errors the rewrite rules throw. -/
inductive SoftDeleteError where
  | relationSafety (model : Option String) (parentModel : Option String) (relName : String)
  | uniqueIndexGuard (model : Option String) (indexField : String)
  | configFieldRequired
  | configCreateValueRequired

/-- One step of the inner `forEach` of `getInclude` (createParams.ts): for an
included relation entry `mv`, if its name contains the configured key
(case-insensitively), rebuild its entry around its `where`; otherwise leave the
accumulator alone. -/
def includeStep (config : ModelConfig) (item : String × Bool)
    (acc : List (String × Value)) (mv : String × Value) : List (String × Value) :=
  let whereV := jsOr (mv.2.lookup "where") (.vObj [])
  if containsLower mv.1 item.1 then
    if item.2 then
      setKey acc mv.1 (.vObj [("where", whereV)])
    else
      setKey acc mv.1 (.vObj [("where",
        .vObj (setKey (toFields whereV) config.field (config.createValue false)))])
  else acc

/-- `getInclude` from createParams.ts. -/
def getInclude (config : ModelConfig) (params : Params) : Value :=
  if config.nestModels.isEmpty then
    jsOr (params.args.lookup "include") (.vObj [])
  else
    let includeFields := toFields (jsOr (params.args.lookup "include") (.vObj []))
    .vObj (config.nestModels.foldl
      (fun acc item => includeFields.foldl (includeStep config item) acc) [])

/-- `getWhere` from createParams.ts (visibility `where` transform). -/
def getWhere (config : ModelConfig) (params : Params) : Value :=
  let args := jsOr params.args (.vObj [])
  let whereV := jsOr (args.lookup "where") (.vObj [])
  match config.queryOption with
  | .all => whereV
  | .only =>
    .vObj (setKey (toFields whereV) config.field
      (.vObj [("not", config.createValue false)]))
  | .except =>
    .vObj (setKey (toFields whereV) config.field
      (jsOr (whereV.lookup config.field) (config.createValue false)))

/-- `getNewWhere` from createParams.ts (delete-path `where` transform). -/
def getNewWhere (config : ModelConfig) (whereV : Value) : Value :=
  match config.queryOption with
  | .all => .vObj (toFields whereV)
  | .only =>
    .vObj (setKey (toFields whereV) config.field
      (.vObj [("not", config.createValue false)]))
  | .except =>
    .vObj (setKey (toFields whereV) config.field (config.createValue false))

/-- `typeof args === "boolean"`. -/
def isBool : Value → Bool
  | .vBool _ => true
  | _ => false

/-- `args === false` (the `delete: false` shorthand). -/
def isBoolFalse : Value → Bool
  | .vBool false => true
  | _ => false

/-- `typeof val === "undefined"`. -/
def isUndef : Value → Bool
  | .vUndef => true
  | _ => false

/-- `createDeleteParams` from createParams.ts. -/
def createDeleteParams (config : ModelConfig) (params : Params) :
    Except SoftDeleteError CreateParamsReturn :=
  if !truthyStr params.model
      || isBoolFalse params.args
      || (params.scope.isNone && !truthy (params.args.lookup "where")) then
    .ok ⟨params, none⟩
  else if isBool params.args then
    .ok ⟨{ params with
             operation := if config.forceDelete then "delete" else "update"
             args := .vObj [("__passUpdateThrough", .vBool true),
                            (config.field, config.createValue true)] }, none⟩
  else
    let whereV := getNewWhere config (jsOr (params.args.lookup "where") params.args)
    .ok ⟨{ params with
             operation := if config.forceDelete then "delete" else "update"
             args := .vObj [("where", whereV),
                            ("data", .vObj [(config.field, config.createValue true)])] }, none⟩

/-- `createDeleteManyParams` from createParams.ts. -/
def createDeleteManyParams (config : ModelConfig) (params : Params) :
    Except SoftDeleteError CreateParamsReturn :=
  if !truthyStr params.model then .ok ⟨params, none⟩
  else
    let whereV := getNewWhere config (jsOr (params.args.lookup "where") params.args)
    if config.forceDelete then
      .ok ⟨{ params with
               operation := "deleteMany"
               args := .vObj [("where", whereV)] }, none⟩
    else
      .ok ⟨{ params with
               operation := "updateMany"
               args := .vObj [("where", whereV),
                              ("data", .vObj [(config.field, config.createValue true)])] },
           none⟩

/-- `delete params.args.__passUpdateThrough` (JS `delete` removes the key). -/
def removeObjKey (v : Value) (k : String) : Value :=
  match v with
  | .vObj l => .vObj (l.filter (fun kv => kv.1 ≠ k))
  | other => other

/-- `createUpdateParams` from createParams.ts. -/
def createUpdateParams (config : ModelConfig) (params : Params) :
    Except SoftDeleteError CreateParamsReturn :=
  let stripped : CreateParamsReturn :=
    if truthy (params.args.lookup "__passUpdateThrough") then
      ⟨{ params with args := removeObjKey params.args "__passUpdateThrough" }, none⟩
    else ⟨params, none⟩
  match params.scope with
  | some sc =>
    match sc.relations with
    | some rel =>
      if !rel.to.isList && !config.allowToOneUpdates
          && !truthy (params.args.lookup "__passUpdateThrough") then
        .error (.relationSafety params.model sc.parentParams.model rel.to.name)
      else .ok stripped
    | none => .ok stripped
  | none => .ok stripped

/-- `createUpdateManyParams` from createParams.ts. -/
def createUpdateManyParams (config : ModelConfig) (params : Params) :
    Except SoftDeleteError CreateParamsReturn :=
  if !truthy params.args then .ok ⟨params, none⟩
  else
    .ok ⟨{ params with args := .vObj (setKey (toFields params.args) "where"
      (.vObj (setKey (toFields (params.args.lookup "where")) config.field
        (jsOr ((params.args.lookup "where").lookup config.field)
          (config.createValue false))))) }, none⟩

/-- `createUpsertParams` from createParams.ts. -/
def createUpsertParams (_config : ModelConfig) (params : Params) :
    Except SoftDeleteError CreateParamsReturn :=
  match params.scope with
  | some sc =>
    match sc.relations with
    | some rel =>
      if !rel.to.isList then
        .error (.relationSafety params.model sc.parentParams.model rel.to.name)
      else .ok ⟨params, none⟩
    | none => .ok ⟨params, none⟩
  | none => .ok ⟨params, none⟩

/-- The module-level metadata createParams.ts precomputes from `Prisma.dmmf`:
per-model simple unique/id field names and compound-unique-index field names. -/
structure DMMF where
  uniqueFieldsByModel : List (String × List String)
  uniqueIndexFieldsByModel : List (String × List String)

/-- `byModel[params.model || ""] || []`. -/
def fieldsFor (table : List (String × List String)) (model : Option String) : List String :=
  match table.find? (fun e => e.1 = model.getD "") with
  | some e => e.2
  | none => []

/-- The `uniqueIndexField` computation shared by `validateFindUniqueParams` and
`shouldPassFindUniqueParamsThrough`: the first key of `args.where` that names a
compound unique index. -/
def findUniqueIndexField (dmmf : DMMF) (params : Params) : Option String :=
  let uniqueIndexFields := fieldsFor dmmf.uniqueIndexFieldsByModel params.model
  (keysOf (jsOr (params.args.lookup "where") (.vObj []))).find?
    (fun key => uniqueIndexFields.contains key)

/-- `validateFindUniqueParams` from createParams.ts. -/
def validateFindUniqueParams (dmmf : DMMF) (params : Params) (config : ModelConfig) :
    Except SoftDeleteError Unit :=
  match findUniqueIndexField dmmf params with
  | some k =>
    if !config.allowCompoundUniqueIndexWhere then
      .error (.uniqueIndexGuard params.model k)
    else .ok ()
  | none => .ok ()

/-- `shouldPassFindUniqueParamsThrough` from createParams.ts. -/
def shouldPassFindUniqueParamsThrough (dmmf : DMMF) (params : Params)
    (config : ModelConfig) : Bool :=
  let uniqueFields := fieldsFor dmmf.uniqueFieldsByModel params.model
  let uniqueIndexFields := fieldsFor dmmf.uniqueIndexFieldsByModel params.model
  let whereV := params.args.lookup "where"
  !truthy whereV
    || !isObjectType whereV
    || !(toFields whereV).any (fun kv =>
          (uniqueFields.contains kv.1 || uniqueIndexFields.contains kv.1)
            && !isUndef kv.2)
    || ((findUniqueIndexField dmmf params).isSome
          && config.allowCompoundUniqueIndexWhere)

/-- `{ ...params.args, where, ...(isEmptyObject(include) ? {} : { include }) }`,
the argument rebuild shared by the find-rewrites in createParams.ts. -/
def buildReadArgs (params : Params) (whereV includeV : Value) : Value :=
  let base := setKey (toFields params.args) "where" whereV
  if isEmptyObject includeV then .vObj base
  else .vObj (setKey base "include" includeV)

/-- `createFindUniqueParams` from createParams.ts. -/
def createFindUniqueParams (dmmf : DMMF) (config : ModelConfig) (params : Params) :
    Except SoftDeleteError CreateParamsReturn :=
  if shouldPassFindUniqueParamsThrough dmmf params config then .ok ⟨params, none⟩
  else
    match validateFindUniqueParams dmmf params config with
    | .error e => .error e
    | .ok _ =>
      .ok ⟨{ params with
               operation := "findFirst"
               args := buildReadArgs params (getWhere config params) (getInclude config params) },
           none⟩

/-- `createFindUniqueOrThrowParams` from createParams.ts. -/
def createFindUniqueOrThrowParams (dmmf : DMMF) (config : ModelConfig) (params : Params) :
    Except SoftDeleteError CreateParamsReturn :=
  if shouldPassFindUniqueParamsThrough dmmf params config then .ok ⟨params, none⟩
  else
    match validateFindUniqueParams dmmf params config with
    | .error e => .error e
    | .ok _ =>
      .ok ⟨{ params with
               operation := "findFirstOrThrow"
               args := buildReadArgs params (getWhere config params) (getInclude config params) },
           none⟩

/-- `createFindFirstParams` from createParams.ts. -/
def createFindFirstParams (config : ModelConfig) (params : Params) :
    Except SoftDeleteError CreateParamsReturn :=
  .ok ⟨{ params with
           operation := "findFirst"
           args := buildReadArgs params (getWhere config params) (getInclude config params) },
       none⟩

/-- `createFindFirstOrThrowParams` from createParams.ts. -/
def createFindFirstOrThrowParams (config : ModelConfig) (params : Params) :
    Except SoftDeleteError CreateParamsReturn :=
  .ok ⟨{ params with
           operation := "findFirstOrThrow"
           args := buildReadArgs params (getWhere config params) (getInclude config params) },
       none⟩

/-- `createFindManyParams` from createParams.ts. -/
def createFindManyParams (config : ModelConfig) (params : Params) :
    Except SoftDeleteError CreateParamsReturn :=
  .ok ⟨{ params with
           operation := "findMany"
           args := buildReadArgs params (getWhere config params) (getInclude config params) },
       none⟩

/-- `createGroupByParams` from createParams.ts. -/
def createGroupByParams (config : ModelConfig) (params : Params) :
    Except SoftDeleteError CreateParamsReturn :=
  .ok ⟨{ params with
           operation := "groupBy"
           args := .vObj (setKey (toFields params.args) "where" (getWhere config params)) },
       none⟩

/-- `createCountParams` from createParams.ts. -/
def createCountParams (config : ModelConfig) (params : Params) :
    Except SoftDeleteError CreateParamsReturn :=
  let args := jsOr params.args (.vObj [])
  .ok ⟨{ params with
         args := .vObj (setKey (toFields args) "where" (getWhere config params)) }, none⟩

/-- `createAggregateParams` from createParams.ts. -/
def createAggregateParams (config : ModelConfig) (params : Params) :
    Except SoftDeleteError CreateParamsReturn :=
  let args := jsOr params.args (.vObj [])
  .ok ⟨{ params with
         args := .vObj (setKey (toFields args) "where" (getWhere config params)) }, none⟩

/-- `createWhereParams` from createParams.ts. -/
def createWhereParams (config : ModelConfig) (params : Params) :
    Except SoftDeleteError CreateParamsReturn :=
  match params.scope with
  | none => .ok ⟨params, none⟩
  | some sc =>
    if sc.modifier = some "every" ∧ truthy (params.args.lookup config.field) = false then
      .ok ⟨{ params with args := .vObj [("OR", .vArr
        [.vObj [(config.field, .vObj [("not", config.createValue false)])],
         params.args])] }, none⟩
    else
      .ok ⟨{ params with args := getNewWhere config params.args }, none⟩

/-- Modelled from the spec: `addDeletedToSelect` lives in
src/lib/utils/nestedReads.ts, which is not among the provided sources; per
spec §4.3 it injects the configured field into the caller's selection. -/
def addDeletedToSelect (params : Params) (config : ModelConfig) : Params :=
  { params with args := .vObj (setKey (toFields params.args) "select"
      (.vObj (setKey (toFields (params.args.lookup "select")) config.field (.vBool true)))) }

/-- `params.scope?.parentParams.operation === "include"`. -/
def parentIsInclude : Option Scope → Bool
  | some sc => sc.parentParams.operation == "include"
  | none => false

/-- `params.scope?.relations?.to.isList === false`. -/
def scopedToOne : Option Scope → Bool
  | some sc =>
    match sc.relations with
    | some rel => rel.to.isList == false
    | none => false
  | none => false

/-- `createSelectParams` from createParams.ts. -/
def createSelectParams (config : ModelConfig) (params : Params) :
    Except SoftDeleteError CreateParamsReturn :=
  if parentIsInclude params.scope then .ok ⟨params, none⟩
  else if scopedToOne params.scope then
    if truthy (params.args.lookup "select")
        && !truthy ((params.args.lookup "select").lookup config.field) then
      .ok ⟨addDeletedToSelect params config,
           some (.vObj [("deletedFieldAdded", .vBool true)])⟩
    else .ok ⟨params, none⟩
  else
    .ok ⟨{ params with
           args := .vObj (setKey (toFields params.args) "where" (getWhere config params)) },
         none⟩

/-! ### createSoftDeleteExtension.ts -/

/-- A config object as the caller may pass it (fields possibly missing);
`defaultConfig` and per-model override objects both have this shape.
`none` models a missing (`undefined`) property. -/
structure RawConfig where
  field : Option String := none
  createValue : Option (Bool → Value) := none
  allowToOneUpdates : Option Bool := none
  allowCompoundUniqueIndexWhere : Option Bool := none
  queryOption : Option TrashedOption := none
  nestModels : Option (List (String × Bool)) := none
  forceDelete : Option Bool := none

/-- An entry of the `models` argument: `boolean` or a config object. -/
inductive ModelsEntry where
  | flag (b : Bool)
  | cfg (c : RawConfig)

/-- The construction-time part of `createSoftDeleteExtension`
(createSoftDeleteExtension.ts lines 52-85): validate the default config, then
resolve the per-model config map (`true` picks the default, `false` drops the
model, a config object is taken as given). -/
def createSoftDeleteExtension (models : List (String × ModelsEntry))
    (defaultConfig : RawConfig) :
    Except SoftDeleteError (List (String × RawConfig)) :=
  if !truthyStr defaultConfig.field then .error .configFieldRequired
  else if defaultConfig.createValue.isNone then .error .configCreateValueRequired
  else
    .ok (models.filterMap fun nameEntry =>
      match nameEntry.2 with
      | .flag true => some (nameEntry.1, defaultConfig)
      | .flag false => none
      | .cfg c => some (nameEntry.1, c))

/-- The `createParamsByModel` dispatch table bound to one model's config:
`createParamsByModel[model][operation]` (createSoftDeleteExtension.ts lines
87-112). `none` mirrors a missing table entry (note `create` has none). -/
def createParamsFor (dmmf : DMMF) (config : ModelConfig) (op : String) :
    Option (Params → Except SoftDeleteError CreateParamsReturn) :=
  match op with
  | "delete" => some (createDeleteParams config)
  | "deleteMany" => some (createDeleteManyParams config)
  | "update" => some (createUpdateParams config)
  | "updateMany" => some (createUpdateManyParams config)
  | "upsert" => some (createUpsertParams config)
  | "findFirst" => some (createFindFirstParams config)
  | "findFirstOrThrow" => some (createFindFirstOrThrowParams config)
  | "findUnique" => some (createFindUniqueParams dmmf config)
  | "findUniqueOrThrow" => some (createFindUniqueOrThrowParams dmmf config)
  | "findMany" => some (createFindManyParams config)
  | "count" => some (createCountParams config)
  | "aggregate" => some (createAggregateParams config)
  | "where" => some (createWhereParams config)
  | "select" => some (createSelectParams config)
  | "groupBy" => some (createGroupByParams config)
  | _ => none

/-- `modelConfig[initialParams.model]` (`undefined` model name finds nothing). -/
def lookupConfig (configs : List (String × ModelConfig)) :
    Option String → Option ModelConfig
  | some m =>
    match configs.find? (fun e => e.1 = m) with
    | some e => some e.2
    | none => none
  | none => none

/-- The in-place reset the root dispatcher performs after a successful
execution: `forceDelete = false; nestModels = {}; queryOption = "except"`. -/
def resetConfig (c : ModelConfig) : ModelConfig :=
  { c with forceDelete := false, nestModels := [], queryOption := .except }

/-- Apply `resetConfig` to the named model's entry of the config map. -/
def resetModelConfig : List (String × ModelConfig) → String → List (String × ModelConfig)
  | [], _ => []
  | (n, c) :: rest, m =>
    if n = m then (n, resetConfig c) :: rest else (n, c) :: resetModelConfig rest m

/-- Errors escaping a root dispatch: a rewrite-rule error or an execution
failure raised by the underlying client. -/
inductive RootError where
  | rewrite (e : SoftDeleteError)
  | exec (msg : String)

/-- `$rootOperation` from createSoftDeleteExtension.ts (lines 147-173), with
the mutable `modelConfig` map passed and returned explicitly. `exec` stands
for the underlying client call `client[modelName][params.operation](args)`.
The result post-processor (`modifyResult`, helpers/modifyResult.ts, not among
the provided sources) runs after the reset and only reshapes the result value,
so it is omitted here; the config-map component is unaffected by it.
Errors thrown by the rewrite rule or by `exec` propagate without any reset
(the source has no try/finally around lines 156-165). -/
def rootOperation (dmmf : DMMF) (configs : List (String × ModelConfig))
    (configModelName : String) (p : Params) (exec : Params → Except String Value) :
    Except RootError Value × List (String × ModelConfig) :=
  match lookupConfig configs p.model with
  | none =>
    (match exec p with
     | .ok v => .ok v
     | .error msg => .error (.exec msg), configs)
  | some config =>
    match createParamsFor dmmf config p.operation with
    | none =>
      (match exec p with
       | .ok v => .ok v
       | .error msg => .error (.exec msg), configs)
    | some createParams =>
      match createParams p with
      | .error e => (.error (.rewrite e), configs)
      | .ok r =>
        match exec r.params with
        | .error msg => (.error (.exec msg), configs)
        | .ok result => (.ok result, resetModelConfig configs configModelName)

/-- The `forceDelete` model method (createSoftDeleteExtension.ts lines
213-219) composed with the rewrite rule the `deleteMany` it issues goes
through: sets `forceDelete = true` on the model's config, then dispatches
`deleteMany({ where })` as a root operation, whose params are produced by
`createDeleteManyParams`. Returns the rewritten params handed to the client. -/
def forceDeleteMethod (modelName : String) (config : ModelConfig) (args : Value) :
    Except SoftDeleteError CreateParamsReturn :=
  let whereArg := jsOr (args.lookup "where") (.vObj [])
  createDeleteManyParams { config with forceDelete := true }
    { model := some modelName
      operation := "deleteMany"
      args := .vObj [("where", whereArg)]
      scope := none }

/-! ### Concrete fixtures used by witnesses and counterexamples -/

/-- A boolean soft-delete config (`{field: "deleted", createValue: Boolean}`). -/
def boolConfig : ModelConfig := { field := "deleted", createValue := Value.vBool }

/-- Metadata of a model `User` with unique fields `id`, `email` and a compound
unique index `name_age`. -/
def userDMMF : DMMF :=
  { uniqueFieldsByModel := [("User", ["id", "email"])]
    uniqueIndexFieldsByModel := [("User", ["name_age"])] }

/-- Caller input of the C1 counterexample: a `findUnique` keyed on the
compound unique index `name_age` with no constraint on `deleted`. -/
def c1xParams : Params :=
  { model := some "User"
    operation := "findUnique"
    args := .vObj [("where", .vObj [("name_age", .vInt 1)])]
    scope := none }

/-- Config of the C1 counterexample: defaults plus
`allowCompoundUniqueIndexWhere = true`. -/
def c1xConfig : ModelConfig := { boolConfig with allowCompoundUniqueIndexWhere := true }

/-- Caller input of the C1 witness: a plain `findMany` with no args. -/
def c1wParams : Params :=
  { model := some "User", operation := "findMany", args := .vUndef, scope := none }

/-- The rewritten params `createFindManyParams` produces for `c1wParams`. -/
def c1wResult : CreateParamsReturn :=
  ⟨{ c1wParams with
       operation := "findMany"
       args := buildReadArgs c1wParams (getWhere boolConfig c1wParams)
         (getInclude boolConfig c1wParams) }, none⟩

/-- Caller input of the C2 witness: `delete({where: {id: 1}})`. -/
def c2Params : Params :=
  { model := some "User"
    operation := "delete"
    args := .vObj [("where", .vObj [("id", .vInt 1)])]
    scope := none }

/-- Config with a pending `forceDelete` flag, as left by a `forceDelete()`
call whose `deleteMany` then fails. -/
def c4Config : ModelConfig := { boolConfig with forceDelete := true }

/-- Root `deleteMany` params of the C4 evaluation. -/
def c4Params : Params :=
  { model := some "User"
    operation := "deleteMany"
    args := .vObj [("where", .vObj [])]
    scope := none }

/-- Config of the C5 counterexample/witness: compound-index lookups allowed. -/
def c5xConfig : ModelConfig := { boolConfig with allowCompoundUniqueIndexWhere := true }

/-- `findUnique` keyed on the compound index `name_age` (C5 counterexample). -/
def c5xParams : Params :=
  { model := some "User"
    operation := "findUnique"
    args := .vObj [("where", .vObj [("name_age", .vInt 2)])]
    scope := none }

/-- `findUnique` keyed on the compound index `name_age` (C5 witness). -/
def c5wParams : Params :=
  { model := some "User"
    operation := "findUnique"
    args := .vObj [("where", .vObj [("name_age", .vInt 3)])]
    scope := none }

/-- A to-one relation `author` (C6). -/
def c6Rel : ScopeRelations := ⟨{ name := "author", isList := false }⟩

/-- Scope of an update nested through `Post.author` (C6). -/
def c6Scope : Scope :=
  { parentParams := { model := some "Post", operation := "update" }
    relations := some c6Rel
    modifier := none }

/-- Nested update params reached through a to-one relation (C6). -/
def c6Params : Params :=
  { model := some "User"
    operation := "update"
    args := .vObj [("where", .vObj [("id", .vInt 1)])]
    scope := some c6Scope }

/-- Scope of a nested `where` under an `every` relation modifier (C7). -/
def c7Scope : Scope :=
  { parentParams := { model := some "Post", operation := "findMany" }
    relations := none
    modifier := some "every" }

/-- Nested `where` args not constraining `deleted` (C7 counterexample). -/
def c7xParams : Params :=
  { model := some "Comment"
    operation := "where"
    args := .vObj [("content", .vStr "x")]
    scope := some c7Scope }

/-- Nested `where` args not constraining `deleted` (C7 witness). -/
def c7wParams : Params :=
  { model := some "Comment"
    operation := "where"
    args := .vObj [("score", .vInt 5)]
    scope := some c7Scope }

/-- The last entry of `nestModels` whose key the relation name `m` contains
(case-insensitively): later iterations of the outer `forEach` of `getInclude`
overwrite earlier ones, so the last matching key decides a relation's entry. -/
def lastMatch (m : String) : List (String × Bool) → Option (String × Bool)
  | [] => none
  | kb :: rest =>
    match lastMatch m rest with
    | some r => some r
    | none => if containsLower m kb.1 then some kb else none

/-- The include entry `getInclude` rebuilds for a relation whose caller entry
is `v`, under a `nestModels` flag `b`: `{where}` when `b` is true (keep
trashed rows), `{where: {...where, field: createValue(false)}}` otherwise. -/
def includeEntry (config : ModelConfig) (b : Bool) (v : Value) : Value :=
  let whereV := jsOr (v.lookup "where") (.vObj [])
  if b then .vObj [("where", whereV)]
  else .vObj [("where",
    .vObj (setKey (toFields whereV) config.field (config.createValue false)))]

/-- Config of the C8 counterexample: `nestModels = {Post: false}`. -/
def c8xConfig : ModelConfig := { boolConfig with nestModels := [("Post", false)] }

/-- `findMany` including `posts` (matches `Post`) and `comments` (matches no
configured key) — C8 counterexample. -/
def c8xParams : Params :=
  { model := some "User"
    operation := "findMany"
    args := .vObj [("include", .vObj
      [("posts", .vBool true),
       ("comments", .vObj [("where", .vObj [("x", .vInt 1)])])])]
    scope := none }

/-- `findMany` including `posts` and `likes` — C8 witness. -/
def c8wParams : Params :=
  { model := some "User"
    operation := "findMany"
    args := .vObj [("include", .vObj
      [("posts", .vBool true), ("likes", .vBool true)])]
    scope := none }

/-- Config with `forceDelete` set (C9). -/
def c9Config : ModelConfig := { boolConfig with forceDelete := true }

/-- Root `delete` params (C9 counterexample). -/
def c9xParams : Params :=
  { model := some "User"
    operation := "delete"
    args := .vObj [("where", .vObj [("id", .vInt 1)])]
    scope := none }

/-- Root `delete` params (C9 witness). -/
def c9wParams : Params :=
  { model := some "User"
    operation := "delete"
    args := .vObj [("where", .vObj [("id", .vInt 2)])]
    scope := none }

/-- A valid default config (C10 witness). -/
def c10Default : RawConfig :=
  { field := some "deletedAt", createValue := some (fun _ => Value.vNull) }

/-- A per-model override object lacking both `field` and `createValue`. -/
def c10Override : RawConfig := {}

/-- `models` map handing `Post` the incomplete override object. -/
def c10Models : List (String × ModelsEntry) :=
  [("Post", .cfg c10Override), ("User", .flag true)]

/-! ### Basic lemmas about the JS-object helpers -/

theorem lookup_vObj (l : List (String × Value)) (k : String) :
    (Value.vObj l).lookup k = lookupF l k := rfl

theorem lookupF_setKey_self (l : List (String × Value)) (k : String) (v : Value) :
    lookupF (setKey l k v) k = v := by
  induction l with
  | nil => simp [setKey, lookupF]
  | cons hd tl ih =>
    obtain ⟨k', v'⟩ := hd
    by_cases h : k' = k
    · simp [setKey, h, lookupF]
    · simp [setKey, h, lookupF, ih]

theorem lookupF_setKey_ne (l : List (String × Value)) (k k' : String) (v : Value)
    (h : k ≠ k') : lookupF (setKey l k v) k' = lookupF l k' := by
  induction l with
  | nil => simp [setKey, lookupF, h]
  | cons hd tl ih =>
    obtain ⟨k₀, v₀⟩ := hd
    by_cases h₀ : k₀ = k
    · subst h₀
      simp [setKey, lookupF, h]
    · simp [setKey, h₀, lookupF, ih]

theorem buildReadArgs_where (params : Params) (w i : Value) :
    (buildReadArgs params w i).lookup "where" = w := by
  unfold buildReadArgs
  split
  · simp [Value.lookup, lookupF_setKey_self]
  · simp only [Value.lookup]
    rw [lookupF_setKey_ne _ _ _ _ (by decide), lookupF_setKey_self]

/-- Under `queryOption = except`, when the caller's `where` does not carry the
configured field, `getWhere` injects `field = createValue(false)`. -/
theorem getWhere_except_lookup (config : ModelConfig) (params : Params)
    (hq : config.queryOption = .except)
    (hf : (params.args.lookup "where").lookup config.field = .vUndef) :
    (getWhere config params).lookup config.field = config.createValue false := by
  have hwv : (jsOr ((jsOr params.args (Value.vObj [])).lookup "where")
      (Value.vObj [])).lookup config.field = Value.vUndef := by
    cases hA : truthy params.args with
    | false =>
      rw [show jsOr params.args (Value.vObj []) = Value.vObj [] from by simp [jsOr, hA]]
      rfl
    | true =>
      simp only [jsOr, hA, if_true]
      cases hw : truthy (params.args.lookup "where") with
      | false => simp [hw, Value.lookup, lookupF]
      | true => simpa [hw] using hf
  simp only [getWhere, hq]
  simp only [Value.lookup] at hwv ⊢
  rw [lookupF_setKey_self, hwv]
  simp [jsOr, truthy]

/-- A value whose property lookup is truthy must be an object. -/
theorem truthy_lookup_vObj {v : Value} {k : String} (h : truthy (v.lookup k) = true) :
    ∃ l, v = Value.vObj l := by
  cases v with
  | vObj l => exact ⟨l, rfl⟩
  | vUndef => simp [Value.lookup, truthy] at h
  | vNull => simp [Value.lookup, truthy] at h
  | vBool b => simp [Value.lookup, truthy] at h
  | vInt n => simp [Value.lookup, truthy] at h
  | vStr s => simp [Value.lookup, truthy] at h
  | vArr l => simp [Value.lookup, truthy] at h

/-! ### C1 -/

/-- C1 (counterexample): with `queryOption = except` and a caller `where` that
does not constrain the configured field, a `findUnique` keyed on a compound
unique index under `allowCompoundUniqueIndexWhere = true` passes through
unchanged, so the executed `where` does **not** contain
`field = createValue(false)`. -/
theorem findUnique_passthrough_executes_unfiltered_where :
    c1xConfig.queryOption = TrashedOption.except ∧
    createFindUniqueParams userDMMF c1xConfig c1xParams = .ok ⟨c1xParams, none⟩ ∧
    (c1xParams.args.lookup "where").lookup c1xConfig.field = Value.vUndef ∧
    (c1xParams.args.lookup "where").lookup c1xConfig.field ≠ c1xConfig.createValue false :=
  ⟨rfl, rfl, rfl, fun h => Value.noConfusion h⟩

/-- C1 (amended): with `queryOption = except` and the caller's `where` not
constraining the configured field, every read rewrite that executes injects
`field = createValue(false)` into the executed `where` — unconditionally for
`findFirst`, `findFirstOrThrow`, `findMany`, `count`, `aggregate`, `groupBy`,
and for `findUnique` / `findUniqueOrThrow` exactly when the lookup is not
passed through (`shouldPassFindUniqueParamsThrough` false; pass-through
lookups execute with the caller's `where` unchanged). -/
theorem read_ops_except_inject_not_deleted
    (dmmf : DMMF) (config : ModelConfig) (params : Params) (op : String)
    (f : Params → Except SoftDeleteError CreateParamsReturn)
    (r : CreateParamsReturn)
    (hq : config.queryOption = .except)
    (hf : (params.args.lookup "where").lookup config.field = .vUndef)
    (hop : op = "findFirst" ∨ op = "findFirstOrThrow" ∨ op = "findMany" ∨
           op = "count" ∨ op = "aggregate" ∨ op = "groupBy" ∨
           ((op = "findUnique" ∨ op = "findUniqueOrThrow") ∧
             shouldPassFindUniqueParamsThrough dmmf params config = false))
    (hcp : createParamsFor dmmf config op = some f)
    (hr : f params = .ok r) :
    (r.params.args.lookup "where").lookup config.field = config.createValue false := by
  rcases hop with h | h | h | h | h | h | ⟨h, hpass⟩
  · subst h
    simp only [createParamsFor, Option.some.injEq] at hcp
    subst hcp
    simp only [createFindFirstParams] at hr
    injection hr with h1
    subst h1
    show ((buildReadArgs params (getWhere config params)
      (getInclude config params)).lookup "where").lookup config.field = _
    rw [buildReadArgs_where]
    exact getWhere_except_lookup config params hq hf
  · subst h
    simp only [createParamsFor, Option.some.injEq] at hcp
    subst hcp
    simp only [createFindFirstOrThrowParams] at hr
    injection hr with h1
    subst h1
    show ((buildReadArgs params (getWhere config params)
      (getInclude config params)).lookup "where").lookup config.field = _
    rw [buildReadArgs_where]
    exact getWhere_except_lookup config params hq hf
  · subst h
    simp only [createParamsFor, Option.some.injEq] at hcp
    subst hcp
    simp only [createFindManyParams] at hr
    injection hr with h1
    subst h1
    show ((buildReadArgs params (getWhere config params)
      (getInclude config params)).lookup "where").lookup config.field = _
    rw [buildReadArgs_where]
    exact getWhere_except_lookup config params hq hf
  · subst h
    simp only [createParamsFor, Option.some.injEq] at hcp
    subst hcp
    simp only [createCountParams] at hr
    injection hr with h1
    subst h1
    show ((Value.vObj (setKey (toFields (jsOr params.args (.vObj [])))
      "where" (getWhere config params))).lookup "where").lookup config.field = _
    simp only [Value.lookup]
    rw [lookupF_setKey_self]
    exact getWhere_except_lookup config params hq hf
  · subst h
    simp only [createParamsFor, Option.some.injEq] at hcp
    subst hcp
    simp only [createAggregateParams] at hr
    injection hr with h1
    subst h1
    show ((Value.vObj (setKey (toFields (jsOr params.args (.vObj [])))
      "where" (getWhere config params))).lookup "where").lookup config.field = _
    simp only [Value.lookup]
    rw [lookupF_setKey_self]
    exact getWhere_except_lookup config params hq hf
  · subst h
    simp only [createParamsFor, Option.some.injEq] at hcp
    subst hcp
    simp only [createGroupByParams] at hr
    injection hr with h1
    subst h1
    show ((Value.vObj (setKey (toFields params.args)
      "where" (getWhere config params))).lookup "where").lookup config.field = _
    simp only [Value.lookup]
    rw [lookupF_setKey_self]
    exact getWhere_except_lookup config params hq hf
  · rcases h with h | h
    · subst h
      simp only [createParamsFor, Option.some.injEq] at hcp
      subst hcp
      simp only [createFindUniqueParams, hpass, Bool.false_eq_true, if_false] at hr
      cases hv : validateFindUniqueParams dmmf params config with
      | error e => rw [hv] at hr; exact Except.noConfusion hr
      | ok u =>
        rw [hv] at hr
        injection hr with h1
        subst h1
        show ((buildReadArgs params (getWhere config params)
          (getInclude config params)).lookup "where").lookup config.field = _
        rw [buildReadArgs_where]
        exact getWhere_except_lookup config params hq hf
    · subst h
      simp only [createParamsFor, Option.some.injEq] at hcp
      subst hcp
      simp only [createFindUniqueOrThrowParams, hpass, Bool.false_eq_true, if_false] at hr
      cases hv : validateFindUniqueParams dmmf params config with
      | error e => rw [hv] at hr; exact Except.noConfusion hr
      | ok u =>
        rw [hv] at hr
        injection hr with h1
        subst h1
        show ((buildReadArgs params (getWhere config params)
          (getInclude config params)).lookup "where").lookup config.field = _
        rw [buildReadArgs_where]
        exact getWhere_except_lookup config params hq hf

/-- Witness: `read_ops_except_inject_not_deleted` applied to a concrete
`findMany` on the boolean config. -/
theorem read_ops_except_inject_not_deleted_witness :
    boolConfig.queryOption = TrashedOption.except ∧
    (c1wParams.args.lookup "where").lookup "deleted" = Value.vUndef ∧
    createParamsFor userDMMF boolConfig "findMany" = some (createFindManyParams boolConfig) ∧
    createFindManyParams boolConfig c1wParams = .ok c1wResult ∧
    (c1wResult.params.args.lookup "where").lookup "deleted" = boolConfig.createValue false :=
  ⟨rfl, rfl, rfl, rfl,
    read_ops_except_inject_not_deleted userDMMF boolConfig c1wParams "findMany"
      (createFindManyParams boolConfig) c1wResult rfl rfl
      (Or.inr (Or.inr (Or.inl rfl))) rfl rfl⟩

/-! ### C2 -/

/-- C2: a root `delete` (no scope, truthy `where`) on a soft-delete-enabled
model with `forceDelete` unset is rewritten to an `update` whose `data` sets
the configured field to `createValue(true)`; the operation kind is `update`,
never a physical `delete`. -/
theorem root_delete_rewrites_to_soft_update
    (config : ModelConfig) (params : Params)
    (hm : truthyStr params.model = true)
    (hroot : params.scope = none)
    (hw : truthy (params.args.lookup "where") = true)
    (hfd : config.forceDelete = false) :
    createDeleteParams config params = .ok
      ⟨{ params with
           operation := "update"
           args := .vObj [("where", getNewWhere config (params.args.lookup "where")),
                          ("data", .vObj [(config.field, config.createValue true)])] },
        none⟩
      ∧ "update" ≠ "delete" := by
  obtain ⟨l, hl⟩ := truthy_lookup_vObj hw
  refine ⟨?_, by decide⟩
  have hbf : isBoolFalse params.args = false := by rw [hl]; rfl
  have hib : isBool params.args = false := by rw [hl]; rfl
  have hjs : jsOr (params.args.lookup "where") params.args = params.args.lookup "where" := by
    simp [jsOr, hw]
  simp [createDeleteParams, hm, hroot, hw, hbf, hib, hjs, hfd]

/-- Witness: `root_delete_rewrites_to_soft_update` at `c2Params` on the
boolean config. -/
theorem root_delete_rewrites_to_soft_update_witness :
    (truthyStr c2Params.model = true ∧ c2Params.scope = none ∧
      truthy (c2Params.args.lookup "where") = true ∧ boolConfig.forceDelete = false) ∧
    (createDeleteParams boolConfig c2Params = .ok
      ⟨{ c2Params with
           operation := "update"
           args := .vObj [("where", getNewWhere boolConfig (c2Params.args.lookup "where")),
                          ("data", .vObj [("deleted", Value.vBool true)])] },
        none⟩
      ∧ "update" ≠ "delete") :=
  ⟨⟨rfl, rfl, rfl, rfl⟩,
    root_delete_rewrites_to_soft_update boolConfig c2Params rfl rfl rfl rfl⟩

/-! ### C3 -/

/-- `jsOr v {}` is always truthy (an object or a truthy value). -/
theorem truthy_jsOr_emptyObj (a : Value) : truthy (jsOr a (Value.vObj [])) = true := by
  unfold jsOr
  cases h : truthy a with
  | false => simp [truthy]
  | true => simpa using h

/-- `createDeleteManyParams` under `forceDelete`: kind stays `deleteMany`, but
the `where` still goes through `getNewWhere`. -/
theorem createDeleteManyParams_forceDelete (config : ModelConfig) (params : Params)
    (hm : truthyStr params.model = true) (hfd : config.forceDelete = true)
    (hw : truthy (params.args.lookup "where") = true) :
    createDeleteManyParams config params = .ok
      ⟨{ params with
           operation := "deleteMany"
           args := .vObj [("where", getNewWhere config (params.args.lookup "where"))] },
        none⟩ := by
  have hjs : jsOr (params.args.lookup "where") params.args = params.args.lookup "where" := by
    simp [jsOr, hw]
  simp [createDeleteManyParams, hm, hjs, hfd]

/-- C3 (counterexample): under the default `except` visibility mode,
`forceDelete({where: {}})` executes a `deleteMany` whose `where` is
`{deleted: false}`, not the caller-supplied `{}` — the soft-delete `where`
transform is still applied and the executed `where` differs from the
caller's. -/
theorem forceDelete_where_still_transformed :
    boolConfig.queryOption = TrashedOption.except ∧
    forceDeleteMethod "User" boolConfig (.vObj [("where", .vObj [])]) = .ok
      ⟨{ model := some "User"
         operation := "deleteMany"
         args := .vObj [("where", .vObj [("deleted", Value.vBool false)])]
         scope := none }, none⟩ ∧
    (Value.vObj [("deleted", Value.vBool false)]) ≠ Value.vObj [] :=
  ⟨rfl, rfl, by simp⟩

/-- C3 (amended): `forceDelete(args)` issues exactly one physical `deleteMany`
(the kind stays `deleteMany`; no soft-update and no delete-marking data), but
its `where` is the caller-supplied `where` passed through the `getNewWhere`
transform for the model's current `queryOption` — under the default `except`
mode this injects `field = createValue(false)`, under `only` it injects
`field = {not: createValue(false)}`, and only under `all` is the caller's
`where` kept as-is. -/
theorem forceDelete_issues_physical_deleteMany_with_transformed_where
    (modelName : String) (config : ModelConfig) (args : Value)
    (hm : modelName.isEmpty = false) :
    forceDeleteMethod modelName config args = .ok
      ⟨{ model := some modelName
         operation := "deleteMany"
         args := .vObj [("where", getNewWhere { config with forceDelete := true }
           (jsOr (args.lookup "where") (.vObj [])))]
         scope := none }, none⟩ := by
  have hm' : truthyStr (some modelName) = true := by simp [truthyStr, hm]
  unfold forceDeleteMethod
  rw [createDeleteManyParams_forceDelete _ _ hm' rfl
    (by exact truthy_jsOr_emptyObj (args.lookup "where"))]
  simp [Value.lookup, lookupF]

/-- Witness: `forceDelete_issues_physical_deleteMany_with_transformed_where`
on a concrete call under `queryOption = only`. -/
theorem forceDelete_transformed_witness :
    ("Post".isEmpty = false) ∧
    forceDeleteMethod "Post" { boolConfig with queryOption := .only }
        (.vObj [("where", .vObj [("id", .vInt 7)])]) = .ok
      ⟨{ model := some "Post"
         operation := "deleteMany"
         args := .vObj [("where", getNewWhere
           { { boolConfig with queryOption := .only } with forceDelete := true }
           (jsOr ((Value.vObj [("where", .vObj [("id", .vInt 7)])]).lookup "where")
             (.vObj [])))]
         scope := none }, none⟩ :=
  ⟨rfl, forceDelete_issues_physical_deleteMany_with_transformed_where "Post"
    { boolConfig with queryOption := .only } (.vObj [("where", .vObj [("id", .vInt 7)])]) rfl⟩

/-! ### C4 -/

/-- C4 (code bug): the root dispatcher resets `forceDelete`, `nestModels` and
`queryOption` only on the success path (there is no try/finally around the
client call in `$rootOperation`). With a pending `forceDelete = true`, a root
`deleteMany` whose execution fails leaves the config unreset
(`forceDelete` still `true`), while the same call with a succeeding execution
does reset it. -/
theorem root_dispatch_skips_reset_on_failure :
    ((rootOperation userDMMF [("User", c4Config)] "User" c4Params
        (fun _ => .error "storage failure")).2.map (fun e => (e.1, e.2.forceDelete))
      = [("User", true)])
    ∧ ((rootOperation userDMMF [("User", c4Config)] "User" c4Params
        (fun _ => .ok .vNull)).2.map (fun e => (e.1, e.2.forceDelete))
      = [("User", false)])
    ∧ ((rootOperation userDMMF [("User", c4Config)] "User" c4Params
        (fun _ => .error "storage failure")).1 = .error (.exec "storage failure")) :=
  ⟨rfl, rfl, rfl⟩

/-! ### C5 -/

/-- C5 (counterexample): a `findUnique` keyed on a compound-unique-index field
with `allowCompoundUniqueIndexWhere = true` is **not** rewritten to
`findFirst` with the visibility `where` injected: it passes through entirely
unchanged, still as `findUnique`. -/
theorem findUnique_compound_allowed_passes_through :
    c5xConfig.allowCompoundUniqueIndexWhere = true ∧
    createFindUniqueParams userDMMF c5xConfig c5xParams = .ok ⟨c5xParams, none⟩ ∧
    c5xParams.operation = "findUnique" ∧ ("findUnique" : String) ≠ "findFirst" :=
  ⟨rfl, rfl, rfl, by decide⟩

/-- C5 (amended): for a `findUnique`/`findUniqueOrThrow` whose `where` is keyed
on a compound-unique-index field: when `allowCompoundUniqueIndexWhere` is
false (and the params are not passed through) the rewrite fails with the
unique-index guard error before anything executes; when the flag is true the
operation is passed through unchanged (no rewrite to `findFirst`, no
visibility `where`). -/
theorem findUnique_compound_guard
    (dmmf : DMMF) (config : ModelConfig) (params : Params) (k : String)
    (hidx : findUniqueIndexField dmmf params = some k) :
    (config.allowCompoundUniqueIndexWhere = false →
      shouldPassFindUniqueParamsThrough dmmf params config = false →
      createFindUniqueParams dmmf config params =
          .error (.uniqueIndexGuard params.model k) ∧
        createFindUniqueOrThrowParams dmmf config params =
          .error (.uniqueIndexGuard params.model k))
    ∧ (config.allowCompoundUniqueIndexWhere = true →
      createFindUniqueParams dmmf config params = .ok ⟨params, none⟩ ∧
        createFindUniqueOrThrowParams dmmf config params = .ok ⟨params, none⟩) := by
  constructor
  · intro hflag hpass
    constructor
    · simp [createFindUniqueParams, hpass, validateFindUniqueParams, hidx, hflag]
    · simp [createFindUniqueOrThrowParams, hpass, validateFindUniqueParams, hidx, hflag]
  · intro hflag
    have hpass : shouldPassFindUniqueParamsThrough dmmf params config = true := by
      simp [shouldPassFindUniqueParamsThrough, hidx, hflag]
    constructor
    · simp [createFindUniqueParams, hpass]
    · simp [createFindUniqueOrThrowParams, hpass]

/-- Witness: `findUnique_compound_guard` on a concrete compound-index lookup,
guard branch (`allowCompoundUniqueIndexWhere = false`). -/
theorem findUnique_compound_guard_witness :
    (findUniqueIndexField userDMMF c5wParams = some "name_age") ∧
    (boolConfig.allowCompoundUniqueIndexWhere = false →
      shouldPassFindUniqueParamsThrough userDMMF c5wParams boolConfig = false →
      createFindUniqueParams userDMMF boolConfig c5wParams =
          .error (.uniqueIndexGuard (some "User") "name_age") ∧
        createFindUniqueOrThrowParams userDMMF boolConfig c5wParams =
          .error (.uniqueIndexGuard (some "User") "name_age")) :=
  ⟨rfl, fun h1 h2 =>
    (findUnique_compound_guard userDMMF boolConfig c5wParams "name_age" rfl).1 h1 h2⟩

/-! ### C6 -/

/-- C6: a nested `update` of a soft-delete-enabled model reached through a
to-one relation without the `__passUpdateThrough` sentinel fails with the
relation-safety error when `allowToOneUpdates` is false, and passes the
operation through unchanged when `allowToOneUpdates` is true. -/
theorem nested_toOne_update_guard
    (config : ModelConfig) (params : Params) (sc : Scope) (rel : ScopeRelations)
    (hsc : params.scope = some sc) (hrel : sc.relations = some rel)
    (hlist : rel.to.isList = false)
    (hflag : truthy (params.args.lookup "__passUpdateThrough") = false) :
    (config.allowToOneUpdates = false →
      createUpdateParams config params =
        .error (.relationSafety params.model sc.parentParams.model rel.to.name))
    ∧ (config.allowToOneUpdates = true →
      createUpdateParams config params = .ok ⟨params, none⟩) := by
  constructor
  · intro ha
    simp [createUpdateParams, hsc, hrel, hlist, hflag, ha]
  · intro ha
    simp [createUpdateParams, hsc, hrel, hlist, hflag, ha]

/-- Witness: `nested_toOne_update_guard` on a concrete update nested through
the to-one relation `Post.author`, both flag values. -/
theorem nested_toOne_update_guard_witness :
    (c6Params.scope = some c6Scope ∧ c6Scope.relations = some c6Rel ∧
      c6Rel.to.isList = false ∧
      truthy (c6Params.args.lookup "__passUpdateThrough") = false) ∧
    ((boolConfig.allowToOneUpdates = false →
      createUpdateParams boolConfig c6Params =
        .error (.relationSafety (some "User") (some "Post") "author"))
    ∧ (boolConfig.allowToOneUpdates = true →
      createUpdateParams boolConfig c6Params = .ok ⟨c6Params, none⟩)) :=
  ⟨⟨rfl, rfl, rfl, rfl⟩,
    nested_toOne_update_guard boolConfig c6Params c6Scope c6Rel rfl rfl rfl rfl⟩

/-! ### C7 -/

/-- C7 (counterexample): the clause the `every`-modifier rewrite injects in
front of the OR is `{field: {not: createValue(false)}}` — the field *differs*
from the not-deleted marker, i.e. it states the record is marked deleted — and
not `{field: createValue(false)}` ("field marks the record as not-deleted")
as the claim reads. -/
theorem where_every_injects_not_clause :
    createWhereParams boolConfig c7xParams = .ok
      ⟨{ c7xParams with args := .vObj [("OR", .vArr
          [.vObj [("deleted", .vObj [("not", Value.vBool false)])],
           c7xParams.args])] }, none⟩
    ∧ (Value.vObj [("deleted", .vObj [("not", Value.vBool false)])]
        ≠ Value.vObj [("deleted", Value.vBool false)]) :=
  ⟨rfl, by simp⟩

/-- C7 (amended): a nested `where` pseudo-operation under an `every` relation
modifier whose args do not already constrain the configured field is replaced
by `{OR: [{field: {not: createValue(false)}}, originalArgs]}` — an OR of a
clause requiring the field to differ from the not-deleted marker (the record
is marked deleted) and the original condition, so the `every` condition is
only enforced on non-deleted rows. -/
theorem where_every_or_wraps_deleted_clause
    (config : ModelConfig) (params : Params) (sc : Scope)
    (hsc : params.scope = some sc) (hmod : sc.modifier = some "every")
    (hf : truthy (params.args.lookup config.field) = false) :
    createWhereParams config params = .ok
      ⟨{ params with args := .vObj [("OR", .vArr
          [.vObj [(config.field, .vObj [("not", config.createValue false)])],
           params.args])] }, none⟩ := by
  simp [createWhereParams, hsc, hmod, hf]

/-- Witness: `where_every_or_wraps_deleted_clause` on a concrete nested
`where` under `every`. -/
theorem where_every_or_wraps_deleted_clause_witness :
    (c7wParams.scope = some c7Scope ∧ c7Scope.modifier = some "every" ∧
      truthy (c7wParams.args.lookup "deleted") = false) ∧
    createWhereParams boolConfig c7wParams = .ok
      ⟨{ c7wParams with args := .vObj [("OR", .vArr
          [.vObj [("deleted", .vObj [("not", Value.vBool false)])],
           c7wParams.args])] }, none⟩ :=
  ⟨⟨rfl, rfl, rfl⟩,
    where_every_or_wraps_deleted_clause boolConfig c7wParams c7Scope rfl rfl rfl⟩

/-! ### C8 -/

/-- `includeStep` phrased through `includeEntry`. -/
theorem includeStep_eq (config : ModelConfig) (item : String × Bool)
    (acc : List (String × Value)) (mv : String × Value) :
    includeStep config item acc mv =
      if containsLower mv.1 item.1 then
        setKey acc mv.1 (includeEntry config item.2 mv.2)
      else acc := by
  unfold includeStep includeEntry
  by_cases h : containsLower mv.1 item.1 = true
  · by_cases h2 : item.2 = true <;> simp [h, h2]
  · simp [h]

/-- The inner `forEach` of `getInclude` never touches a key that is not among
the caller's included relation names. -/
theorem lookupF_innerFold_not_mem (config : ModelConfig) (item : String × Bool)
    (fields : List (String × Value)) (acc : List (String × Value)) (m : String)
    (hm : m ∉ fields.map Prod.fst) :
    lookupF (fields.foldl (includeStep config item) acc) m = lookupF acc m := by
  induction fields generalizing acc with
  | nil => rfl
  | cons hd tl ih =>
    have hm1 : hd.1 ≠ m := fun e => hm (by simp [e])
    have hm2 : m ∉ tl.map Prod.fst := fun e => hm (by simp [e])
    rw [List.foldl_cons, ih _ hm2]
    rw [includeStep_eq]
    by_cases h : containsLower hd.1 item.1 = true
    · simp [h, lookupF_setKey_ne _ _ _ _ hm1]
    · simp [h]

/-- The inner `forEach` of `getInclude` on a caller entry `(m, v)` (unique
keys): result of looking up `m` afterwards. -/
theorem lookupF_innerFold_mem (config : ModelConfig) (item : String × Bool)
    (fields : List (String × Value)) (acc : List (String × Value))
    (m : String) (v : Value)
    (hnd : (fields.map Prod.fst).Nodup) (hmem : (m, v) ∈ fields) :
    lookupF (fields.foldl (includeStep config item) acc) m =
      if containsLower m item.1 then includeEntry config item.2 v
      else lookupF acc m := by
  induction fields generalizing acc with
  | nil => cases hmem
  | cons hd tl ih =>
    rw [List.foldl_cons]
    rcases List.mem_cons.mp hmem with he | hmem'
    · obtain rfl := he.symm
      have hnotin : m ∉ tl.map Prod.fst := (List.nodup_cons.mp (by simpa using hnd)).1
      rw [lookupF_innerFold_not_mem config item tl _ m hnotin]
      rw [includeStep_eq]
      by_cases h : containsLower m item.1 = true
      · simp [h, lookupF_setKey_self]
      · simp [h]
    · have hmtl : m ∈ tl.map Prod.fst := List.mem_map.mpr ⟨(m, v), hmem', rfl⟩
      have hnd' : (tl.map Prod.fst).Nodup := (List.nodup_cons.mp hnd).2
      have hne : hd.1 ≠ m := fun e => (List.nodup_cons.mp hnd).1 (e ▸ hmtl)
      rw [ih _ hnd' hmem']
      by_cases h : containsLower m item.1 = true
      · simp [h]
      · simp only [h, Bool.false_eq_true, if_false]
        rw [includeStep_eq]
        by_cases h2 : containsLower hd.1 item.1 = true
        · simp [h2, lookupF_setKey_ne _ _ _ _ hne]
        · simp [h2]

/-- The outer `forEach` of `getInclude`: the last matching `nestModels` key
decides the entry of an included relation. -/
theorem lookupF_outerFold (config : ModelConfig) (nm : List (String × Bool))
    (fields : List (String × Value)) (acc : List (String × Value))
    (m : String) (v : Value)
    (hnd : (fields.map Prod.fst).Nodup) (hmem : (m, v) ∈ fields) :
    lookupF (nm.foldl (fun acc2 item => fields.foldl (includeStep config item) acc2) acc) m =
      match lastMatch m nm with
      | some kb => includeEntry config kb.2 v
      | none => lookupF acc m := by
  induction nm generalizing acc with
  | nil => rfl
  | cons kb rest ih =>
    rw [List.foldl_cons, ih]
    cases hlm : lastMatch m rest with
    | some r => simp [lastMatch, hlm]
    | none =>
      simp only [lastMatch, hlm]
      rw [lookupF_innerFold_mem config kb fields acc m v hnd hmem]
      by_cases h : containsLower m kb.1 = true
      · simp [h]
      · simp [h]

/-- C8 (counterexample): with `nestModels = {Post: false}` and a caller
include of `posts` and `comments`, the rewritten include keeps only `posts`
(with the visibility `where` injected); `comments`, which matches no
configured key, is dropped from the include rather than left unchanged. -/
theorem getInclude_drops_unmatched_relations :
    getInclude c8xConfig c8xParams =
      .vObj [("posts", .vObj [("where", .vObj [("deleted", Value.vBool false)])])] ∧
    (c8xParams.args.lookup "include").lookup "comments" =
      .vObj [("where", .vObj [("x", .vInt 1)])] ∧
    (Value.vObj [("where", .vObj [("x", .vInt 1)])]) ≠ Value.vUndef ∧
    (getInclude c8xConfig c8xParams).lookup "comments" = Value.vUndef :=
  ⟨rfl, rfl, fun h => Value.noConfusion h, rfl⟩

/-- C8 (amended): with empty `nestModels` the caller's include passes through
unchanged. With non-empty `nestModels`, for an included relation `(m, v)`
(relation names unique): if no configured key matches `m`
(case-insensitive substring), the relation is **dropped** from the rewritten
include (`vUndef`); otherwise the last matching key `kb` decides its entry —
`{where}` unchanged when `kb`'s value is true, `{where}` with
`field = createValue(false)` injected when false (`includeEntry`). -/
theorem getInclude_nestModels_behavior
    (config : ModelConfig) (params : Params) (m : String) (v : Value)
    (hnd : ((toFields (jsOr (params.args.lookup "include") (.vObj []))).map Prod.fst).Nodup)
    (hmem : (m, v) ∈ toFields (jsOr (params.args.lookup "include") (.vObj []))) :
    (config.nestModels = [] →
      getInclude config params = jsOr (params.args.lookup "include") (.vObj []))
    ∧ (config.nestModels ≠ [] →
      (getInclude config params).lookup m =
        match lastMatch m config.nestModels with
        | some kb => includeEntry config kb.2 v
        | none => Value.vUndef) := by
  constructor
  · intro he
    simp [getInclude, he]
  · intro hne
    have hne' : config.nestModels.isEmpty = false := by
      cases hcm : config.nestModels with
      | nil => exact absurd hcm hne
      | cons a b => rfl
    unfold getInclude
    rw [hne']
    simp only [Bool.false_eq_true, if_false]
    rw [lookup_vObj]
    rw [lookupF_outerFold config config.nestModels _ [] m v hnd hmem]
    cases lastMatch m config.nestModels with
    | some kb => rfl
    | none => rfl

/-- Witness: `getInclude_nestModels_behavior` on a concrete include of
`posts` and `likes` against `nestModels = {Post: false}`. -/
theorem getInclude_nestModels_behavior_witness :
    (((toFields (jsOr (c8wParams.args.lookup "include") (.vObj []))).map Prod.fst).Nodup ∧
      ("posts", Value.vBool true) ∈
        toFields (jsOr (c8wParams.args.lookup "include") (.vObj [])) ∧
      c8xConfig.nestModels ≠ []) ∧
    (getInclude c8xConfig c8wParams).lookup "posts" =
      includeEntry c8xConfig false (Value.vBool true) :=
  ⟨⟨by decide, List.Mem.head _, by decide⟩,
    (getInclude_nestModels_behavior c8xConfig c8wParams "posts" (Value.vBool true)
      (by decide) (List.Mem.head _)).2 (by decide)⟩

/-! ### C9 -/

/-- C9 (counterexample): a root `delete` with `forceDelete` set keeps kind
`delete`, but its args are transformed all the same: the executed args carry
`data = {deleted: true}` (delete-marking data) and a `where` with
`deleted: false` injected, neither of which the caller supplied. -/
theorem forceDelete_delete_args_still_rewritten :
    c9Config.forceDelete = true ∧
    createDeleteParams c9Config c9xParams = .ok
      ⟨{ c9xParams with
           operation := "delete"
           args := .vObj [("where", .vObj [("id", .vInt 1), ("deleted", Value.vBool false)]),
                          ("data", .vObj [("deleted", Value.vBool true)])] }, none⟩ ∧
    c9xParams.args.lookup "data" = Value.vUndef ∧
    (Value.vObj [("where", .vObj [("id", .vInt 1), ("deleted", Value.vBool false)]),
                 ("data", .vObj [("deleted", Value.vBool true)])]) ≠ c9xParams.args :=
  ⟨rfl, rfl, rfl, by simp [c9xParams]⟩

/-- C9 (amended): with `forceDelete` set, a `delete` on a soft-delete-enabled
model keeps the operation kind `delete` (no soft-update), but its args are
still rebuilt: the boolean-true nested shorthand becomes the
`__passUpdateThrough` sentinel object with the delete-marking value, and a
`where`-carrying delete gets its `where` passed through `getNewWhere` with
`data = {field: createValue(true)}` attached. -/
theorem delete_forceDelete_keeps_kind_but_rewrites_args
    (config : ModelConfig) (params : Params)
    (hm : truthyStr params.model = true)
    (hfd : config.forceDelete = true) :
    (params.args = .vBool true → params.scope.isNone = false →
      createDeleteParams config params = .ok
        ⟨{ params with
             operation := "delete"
             args := .vObj [("__passUpdateThrough", .vBool true),
                            (config.field, config.createValue true)] }, none⟩)
    ∧ (truthy (params.args.lookup "where") = true →
      createDeleteParams config params = .ok
        ⟨{ params with
             operation := "delete"
             args := .vObj [("where", getNewWhere config (params.args.lookup "where")),
                            ("data", .vObj [(config.field, config.createValue true)])] },
          none⟩) := by
  constructor
  · intro ha hsc
    simp [createDeleteParams, hm, ha, hsc, hfd, isBoolFalse, isBool, Value.lookup, truthy]
  · intro hw
    obtain ⟨l, hl⟩ := truthy_lookup_vObj hw
    have hbf : isBoolFalse params.args = false := by rw [hl]; rfl
    have hib : isBool params.args = false := by rw [hl]; rfl
    have hjs : jsOr (params.args.lookup "where") params.args = params.args.lookup "where" := by
      simp [jsOr, hw]
    simp [createDeleteParams, hm, hw, hbf, hib, hjs, hfd]

/-- Witness: `delete_forceDelete_keeps_kind_but_rewrites_args` on a concrete
root `delete({where: {id: 2}})` with `forceDelete` pending. -/
theorem delete_forceDelete_keeps_kind_but_rewrites_args_witness :
    (truthyStr c9wParams.model = true ∧ c9Config.forceDelete = true ∧
      truthy (c9wParams.args.lookup "where") = true) ∧
    createDeleteParams c9Config c9wParams = .ok
      ⟨{ c9wParams with
           operation := "delete"
           args := .vObj [("where", getNewWhere c9Config (c9wParams.args.lookup "where")),
                          ("data", .vObj [("deleted", Value.vBool true)])] }, none⟩ :=
  ⟨⟨rfl, rfl, rfl⟩,
    (delete_forceDelete_keeps_kind_but_rewrites_args c9Config c9wParams rfl rfl).2 rfl⟩

/-! ### C10 -/

/-- C10: construction validates only the default config —
`createSoftDeleteExtension` raises the missing-field (resp.
missing-createValue) error exactly when the default config lacks a truthy
`field` (resp. lacks `createValue`), and any per-model override supplied as a
config object is resolved into the config map exactly as given, without any
validation, even when it lacks `field` or `createValue`. -/
theorem construction_validates_only_defaultConfig
    (models : List (String × ModelsEntry)) (dc : RawConfig) :
    (truthyStr dc.field = false →
      createSoftDeleteExtension models dc = .error .configFieldRequired)
    ∧ (truthyStr dc.field = true → dc.createValue.isNone = true →
      createSoftDeleteExtension models dc = .error .configCreateValueRequired)
    ∧ (truthyStr dc.field = true → dc.createValue.isNone = false →
      ∀ name c, (name, ModelsEntry.cfg c) ∈ models →
        ∃ res, createSoftDeleteExtension models dc = .ok res ∧ (name, c) ∈ res) := by
  refine ⟨?_, ?_, ?_⟩
  · intro h
    simp [createSoftDeleteExtension, h]
  · intro h1 h2
    simp [createSoftDeleteExtension, h1, h2]
  · intro h1 h2 name c hmem
    refine ⟨models.filterMap (fun nameEntry =>
      match nameEntry.2 with
      | .flag true => some (nameEntry.1, dc)
      | .flag false => none
      | .cfg c => some (nameEntry.1, c)), ?_, ?_⟩
    · simp [createSoftDeleteExtension, h1, h2]
    · exact List.mem_filterMap.mpr ⟨(name, .cfg c), hmem, rfl⟩

/-- Witness: `construction_validates_only_defaultConfig` with a valid default
config and a `Post` override lacking both `field` and `createValue` — the
override is accepted as-is. -/
theorem construction_validates_only_defaultConfig_witness :
    (truthyStr c10Default.field = true ∧ c10Default.createValue.isNone = false ∧
      c10Override.field = none ∧ c10Override.createValue = none) ∧
    (∃ res, createSoftDeleteExtension c10Models c10Default = .ok res ∧
      ("Post", c10Override) ∈ res) :=
  ⟨⟨rfl, rfl, rfl, rfl⟩,
    (construction_validates_only_defaultConfig c10Models c10Default).2.2 rfl rfl
      "Post" c10Override (List.Mem.head _)⟩

end SoftDelete
